import Mathlib

/-!
Verification of the kernel_tuner tuning engine (`kernel_tuner/interface.py` and
`kernel_tuner/opencl.py`).

Modelling conventions used throughout this development:

* Python strings are modelled as `List Char` (abbreviated `Str`); `str.join`,
  `+` and `str.replace` become the corresponding list operations.
* Python `str(i)` on an integer is modelled by `intStr` (decimal digits with a
  leading `-` for negative numbers), written with explicit fuel so that it is
  kernel-reducible.
* Python dictionaries with unique keys (the tunable-parameter dictionaries,
  which the spec requires to have unique names) are modelled as association
  lists in insertion order; `dict.get`/`in` become association-list lookup.
* The dynamic `eval` of a restriction or grid-divisor string after textual
  parameter substitution is modelled by evaluating an arithmetic/boolean
  expression AST (`AExpr`/`BExpr`) over the configuration's bindings.
  Evaluation returns `Option`/`Except`: a `none`/`.error` models the Python
  exception raised for an unknown name or a division by zero.  Python's
  true division of integers produces floats; floats are modelled by `ℚ`,
  and `int(...)` truncation toward zero by `pyInt`.
* The device backend (context creation, compilation, launches, memory) is
  external to the core; it is modelled by an oracle `DeviceInterface` whose
  fields give the backend-reported maximum thread count, the outcome of each
  compilation, the post-run host-visible contents of each argument position,
  and the benchmark time, keyed by the per-configuration kernel name.
-/

/-- Python strings, modelled as lists of characters. -/
abbrev Str := List Char

/-- Decimal digit characters, as produced by Python's `str` on integers. -/
def digitChar (d : Nat) : Char :=
  match d with
  | 0 => '0'
  | 1 => '1'
  | 2 => '2'
  | 3 => '3'
  | 4 => '4'
  | 5 => '5'
  | 6 => '6'
  | 7 => '7'
  | 8 => '8'
  | 9 => '9'
  | _ => '?'

/-- Inverse of `digitChar` on decimal digits. -/
def digitVal (c : Char) : Nat :=
  match c with
  | '0' => 0
  | '1' => 1
  | '2' => 2
  | '3' => 3
  | '4' => 4
  | '5' => 5
  | '6' => 6
  | '7' => 7
  | '8' => 8
  | '9' => 9
  | _ => 10

/-- Fuelled decimal rendering of a natural number (most significant digit
first); `natStrAux n n` is the digit string of a positive `n`. -/
def natStrAux : Nat → Nat → Str
  | 0, _ => []
  | _ + 1, 0 => []
  | fuel + 1, n + 1 => natStrAux fuel ((n + 1) / 10) ++ [digitChar ((n + 1) % 10)]

/-- Python `str` on a natural number. -/
def natStr (n : Nat) : Str := if n = 0 then ['0'] else natStrAux n n

/-- Python `str` on an integer: decimal digits, `-`-prefixed when negative. -/
def intStr (i : Int) : Str :=
  if i < 0 then '-' :: natStr (-i).toNat else natStr i.toNat

/-- Decimal value of a digit string (used only to prove `natStr` injective). -/
def natVal (s : Str) : Nat := s.foldl (fun acc c => 10 * acc + digitVal c) 0

theorem digitVal_digitChar {d : Nat} (hd : d < 10) : digitVal (digitChar d) = d := by
  interval_cases d <;> rfl

theorem natVal_append (s : Str) (c : Char) :
    natVal (s ++ [c]) = 10 * natVal s + digitVal c := by
  unfold natVal
  rw [List.foldl_append]
  rfl

theorem natVal_natStrAux : ∀ (fuel n : Nat), n ≤ fuel → natVal (natStrAux fuel n) = n := by
  intro fuel
  induction fuel with
  | zero =>
    intro n hn
    interval_cases n
    rfl
  | succ fuel ih =>
    intro n hn
    match n with
    | 0 => rfl
    | m + 1 =>
      rw [natStrAux, natVal_append, ih ((m + 1) / 10) (by omega),
        digitVal_digitChar (Nat.mod_lt _ (by omega))]
      omega

theorem natVal_natStr (n : Nat) : natVal (natStr n) = n := by
  unfold natStr
  by_cases h : n = 0
  · simp [h]
    rfl
  · rw [if_neg h, natVal_natStrAux n n le_rfl]

theorem natStr_injective : Function.Injective natStr := by
  intro m n h
  have := natVal_natStr m
  rw [h, natVal_natStr] at this
  omega

theorem natStrAux_chars :
    ∀ (fuel n : Nat), ∀ c ∈ natStrAux fuel n, ∃ d, d < 10 ∧ c = digitChar d := by
  intro fuel
  induction fuel with
  | zero => intro n c hc; simp [natStrAux] at hc
  | succ fuel ih =>
    intro n c hc
    match n with
    | 0 => simp [natStrAux] at hc
    | m + 1 =>
      rw [natStrAux] at hc
      rcases List.mem_append.mp hc with h | h
      · exact ih _ c h
      · exact ⟨(m + 1) % 10, Nat.mod_lt _ (by omega), by simpa using h⟩

theorem natStr_chars (n : Nat) : ∀ c ∈ natStr n, ∃ d, d < 10 ∧ c = digitChar d := by
  intro c hc
  unfold natStr at hc
  by_cases h : n = 0
  · rw [if_pos h] at hc
    exact ⟨0, by omega, by simpa using hc⟩
  · rw [if_neg h] at hc
    exact natStrAux_chars n n c hc

theorem natStr_ne_nil (n : Nat) : natStr n ≠ [] := by
  unfold natStr
  by_cases h : n = 0
  · simp [h]
  · rw [if_neg h]
    match n, h with
    | m + 1, _ =>
      rw [natStrAux]
      simp

theorem digitChar_ne_dash {d : Nat} (hd : d < 10) : digitChar d ≠ '-' := by
  interval_cases d <;> decide

theorem dash_not_mem_natStr (n : Nat) : '-' ∉ natStr n := by
  intro hmem
  obtain ⟨d, hd, hc⟩ := natStr_chars n '-' hmem
  exact digitChar_ne_dash hd hc.symm

theorem intStr_injective : Function.Injective intStr := by
  intro i j h
  unfold intStr at h
  by_cases hi : i < 0 <;> by_cases hj : j < 0
  · rw [if_pos hi, if_pos hj] at h
    have := natStr_injective (List.cons_injective h)
    omega
  · rw [if_pos hi, if_neg hj] at h
    have hmem : '-' ∈ natStr j.toNat := by rw [← h]; exact List.mem_cons_self '-' _
    exact absurd hmem (dash_not_mem_natStr j.toNat)
  · rw [if_neg hi, if_pos hj] at h
    have hmem : '-' ∈ natStr i.toNat := by rw [h]; exact List.mem_cons_self '-' _
    exact absurd hmem (dash_not_mem_natStr i.toNat)
  · rw [if_neg hi, if_neg hj] at h
    have := natStr_injective h
    omega

theorem intStr_chars (i : Int) :
    ∀ c ∈ intStr i, c = '-' ∨ ∃ d, d < 10 ∧ c = digitChar d := by
  intro c hc
  unfold intStr at hc
  by_cases hi : i < 0
  · rw [if_pos hi] at hc
    rcases List.mem_cons.mp hc with h | h
    · exact Or.inl h
    · exact Or.inr (natStr_chars _ c h)
  · rw [if_neg hi] at hc
    exact Or.inr (natStr_chars _ c hc)

theorem underscore_not_mem_intStr (i : Int) : '_' ∉ intStr i := by
  intro hmem
  rcases intStr_chars i '_' hmem with h | ⟨d, hd, hc⟩
  · exact absurd h (by decide)
  · revert hc
    interval_cases d <;> decide

/-- Python `"_".join` on a list of strings. -/
def joinUnderscore : List Str → Str
  | [] => []
  | [s] => s
  | s :: rest => s ++ '_' :: joinUnderscore rest

/-- Splits a string at every underscore (inverse of `joinUnderscore` on
underscore-free parts; used only for the injectivity proof). -/
def splitUnderscore : Str → List Str
  | [] => [[]]
  | c :: cs =>
    if c = '_' then [] :: splitUnderscore cs
    else
      match splitUnderscore cs with
      | [] => [[c]]
      | g :: gs => (c :: g) :: gs

theorem splitUnderscore_ne_nil (s : Str) : splitUnderscore s ≠ [] := by
  match s with
  | [] => simp [splitUnderscore]
  | c :: cs =>
    rw [splitUnderscore]
    by_cases h : c = '_'
    · simp [h]
    · rw [if_neg h]
      match splitUnderscore cs with
      | [] => simp
      | g :: gs => simp

theorem splitUnderscore_append (p : Str) (hp : '_' ∉ p) :
    ∀ s g gs, splitUnderscore s = g :: gs → splitUnderscore (p ++ s) = (p ++ g) :: gs := by
  induction p with
  | nil => intro s g gs h; simpa using h
  | cons c p ih =>
    intro s g gs h
    have hc : c ≠ '_' := fun hc => hp (hc ▸ List.mem_cons_self c p)
    have hp' : '_' ∉ p := fun hm => hp (List.mem_cons_of_mem c hm)
    have := ih hp' s g gs h
    rw [List.cons_append, splitUnderscore, if_neg hc, this]
    rfl

theorem splitUnderscore_join (parts : List Str) (hne : parts ≠ [])
    (hfree : ∀ p ∈ parts, '_' ∉ p) :
    splitUnderscore (joinUnderscore parts) = parts := by
  induction parts with
  | nil => exact absurd rfl hne
  | cons s rest ih =>
    match rest with
    | [] =>
      have hs : '_' ∉ s := hfree s (List.mem_cons_self s [])
      have : joinUnderscore [s] = s ++ [] := by simp [joinUnderscore]
      rw [this, splitUnderscore_append s hs [] [] [] rfl]
      simp
    | r :: rest' =>
      have hs : '_' ∉ s := hfree s (List.mem_cons_self s _)
      have hrest : ∀ p ∈ r :: rest', '_' ∉ p := fun p hp =>
        hfree p (List.mem_cons_of_mem s hp)
      have hj : splitUnderscore (joinUnderscore (r :: rest')) = r :: rest' :=
        ih (List.cons_ne_nil r rest') hrest
      have hcons : splitUnderscore ('_' :: joinUnderscore (r :: rest')) =
          [] :: r :: rest' := by
        rw [splitUnderscore, if_pos rfl, hj]
      have := splitUnderscore_append s hs ('_' :: joinUnderscore (r :: rest'))
        [] (r :: rest') hcons
      have hjoin : joinUnderscore (s :: r :: rest') = s ++ '_' :: joinUnderscore (r :: rest') := rfl
      rw [hjoin, this]
      simp

theorem joinUnderscore_injective (p q : List Str) (hpne : p ≠ []) (hqne : q ≠ [])
    (hpf : ∀ s ∈ p, '_' ∉ s) (hqf : ∀ s ∈ q, '_' ∉ s)
    (h : joinUnderscore p = joinUnderscore q) : p = q := by
  have := splitUnderscore_join p hpne hpf
  rw [h, splitUnderscore_join q hqne hqf] at this
  exact this.symm

/-- `interface.py:295`: `instance_string = "_".join([str(i) for i in params.values()])`,
the canonical identity of a configuration. -/
def instanceString (vals : List Int) : Str := joinUnderscore (vals.map intStr)

theorem instanceString_injective (v w : List Int) (hv : v ≠ []) (hw : w ≠ [])
    (h : instanceString v = instanceString w) : v = w := by
  have hmaps : v.map intStr = w.map intStr :=
    joinUnderscore_injective _ _ (by simpa using hv) (by simpa using hw)
      (by intro s hs; obtain ⟨i, _, rfl⟩ := List.mem_map.mp hs; exact underscore_not_mem_intStr i)
      (by intro s hs; obtain ⟨i, _, rfl⟩ := List.mem_map.mp hs; exact underscore_not_mem_intStr i)
      h
  exact List.map_injective_iff.mpr intStr_injective hmaps

/-- A configuration's bindings: `dict(zip(tune_params.keys(), element))`,
modelled as an association list in key order (keys are unique per the
parameter-domain invariant). -/
abbrev Params := List (Str × Int)

/-- Python `params.get(name)` / `name in params`. -/
def lookupParam : Params → Str → Option Int
  | [], _ => none
  | (k, v) :: rest, name => if k = name then some v else lookupParam rest name

/-- Arithmetic expressions over parameter names: the model of a grid-divisor
string evaluated by `eval` after `_replace_param_occurrences`. -/
inductive AExpr where
  | var (name : Str)
  | num (n : Int)
  | add (a b : AExpr)
  | sub (a b : AExpr)
  | mul (a b : AExpr)
  | div (a b : AExpr)

/-- Evaluates an arithmetic expression against a configuration; `none` models
the exception Python's `eval` raises for an unknown name or division by
zero.  Numbers evaluate in `ℚ`, the model of Python numerics under true
division. -/
def AExpr.eval (params : Params) : AExpr → Option ℚ
  | .var name => (lookupParam params name).map (fun v => (v : ℚ))
  | .num n => some ((n : ℚ))
  | .add a b => do pure ((← a.eval params) + (← b.eval params))
  | .sub a b => do pure ((← a.eval params) - (← b.eval params))
  | .mul a b => do pure ((← a.eval params) * (← b.eval params))
  | .div a b => do
    let x ← a.eval params
    let y ← b.eval params
    if y = 0 then none else pure (x / y)

/-- Python `int(...)` on a number: truncation toward zero. -/
def pyInt (q : ℚ) : Int := if q < 0 then ⌈q⌉ else ⌊q⌋

/-- Comparison operators of a restriction expression. -/
inductive CmpOp where
  | eq | ne | lt | le | gt | ge

def CmpOp.apply : CmpOp → ℚ → ℚ → Bool
  | .eq, x, y => decide (x = y)
  | .ne, x, y => decide (x ≠ y)
  | .lt, x, y => decide (x < y)
  | .le, x, y => decide (x ≤ y)
  | .gt, x, y => decide (y < x)
  | .ge, x, y => decide (y ≤ x)

/-- Boolean restriction expressions, evaluated by Python's `eval` after
parameter substitution; `and`/`or` short-circuit as in Python. -/
inductive BExpr where
  | lit (b : Bool)
  | cmp (op : CmpOp) (a b : AExpr)
  | conj (x y : BExpr)
  | disj (x y : BExpr)
  | neg (x : BExpr)

def BExpr.eval (params : Params) : BExpr → Option Bool
  | .lit b => some b
  | .cmp op a b => do pure (op.apply (← a.eval params) (← b.eval params))
  | .conj x y => do if (← x.eval params) then y.eval params else pure false
  | .disj x y => do if (← x.eval params) then pure true else y.eval params
  | .neg x => (x.eval params).map (fun b => !b)

def block_size_x_key : Str := "block_size_x".toList
def block_size_y_key : Str := "block_size_y".toList
def block_size_z_key : Str := "block_size_z".toList

/-- `interface.py:468`: `[int(eval(_replace_param_occurrences(s, params))) for s in grid_div]`
followed by `numpy.prod`; `none` models a raised evaluation error. -/
def prod_eval (params : Params) (exprs : List AExpr) : Option Int :=
  (exprs.mapM (fun s => (AExpr.eval params s).map pyInt)).map List.prod

/-- `interface.py:462-474` (`_get_grid_dimensions`): computes the grid from the
problem size and the divisor lists; real-valued division rounded up.  `none`
models a raised exception (unknown name in a divisor, or division by zero,
including `float(problem_size)/float(0)`). -/
def get_grid_dimensions (problem_size : Int × Int) (params : Params)
    (grid_div_y grid_div_x : Option (List AExpr)) : Option (Int × Int) :=
  let gdx : Option (List AExpr) :=
    match grid_div_x with
    | none =>
      if (lookupParam params block_size_x_key).isSome then some [AExpr.var block_size_x_key]
      else none
    | some l => some l
  let div_x : Option Int := match gdx with
    | none => some 1
    | some l => prod_eval params l
  let div_y : Option Int := match grid_div_y with
    | none => some 1
    | some l => prod_eval params l
  match div_x, div_y with
  | some dx, some dy =>
    if dx = 0 ∨ dy = 0 then none
    else some (⌈(problem_size.1 : ℚ) / (dx : ℚ)⌉, ⌈(problem_size.2 : ℚ) / (dy : ℚ)⌉)
  | _, _ => none

/-- `interface.py:476-481` (`_get_thread_block_dimensions`): thread block
dimensions from the configuration, defaulting to 256/1/1. -/
def get_thread_block_dimensions (params : Params) : Int × Int × Int :=
  ((lookupParam params block_size_x_key).getD 256,
   (lookupParam params block_size_y_key).getD 1,
   (lookupParam params block_size_z_key).getD 1)

/-- One `#define` line: `"#define " + k + " " + str(v) + "\n"`. -/
def defineLine (k : Str) (v : Int) : Str :=
  "#define ".toList ++ k ++ [' '] ++ intStr v ++ ['\n']

def grid_size_x_key : Str := "grid_size_x".toList
def grid_size_y_key : Str := "grid_size_y".toList

/-- `interface.py:483-490` (`_prepare_kernel_string`): prepends the
`grid_size_x` define, then the `grid_size_y` define, then one define per
parameter, each prepend pushing the previous text down. -/
def prepare_kernel_string (original_kernel : Str) (params : Params)
    (grid : Int × Int) : Str :=
  let s1 := defineLine grid_size_x_key grid.1 ++ original_kernel
  let s2 := defineLine grid_size_y_key grid.2 ++ s1
  params.foldl (fun acc kv => defineLine kv.1 kv.2 ++ acc) s2

/-- Fuelled worker for Python's `str.replace` (replace all non-overlapping
occurrences, scanning left to right). -/
def replaceAllFuel (pat rep : Str) : Nat → Str → Str
  | 0, s => s
  | _ + 1, [] => []
  | fuel + 1, c :: cs =>
    if pat ≠ [] ∧ pat.isPrefixOf (c :: cs) then
      rep ++ replaceAllFuel pat rep fuel ((c :: cs).drop pat.length)
    else c :: replaceAllFuel pat rep fuel cs

/-- Python `s.replace(pat, rep)` for a non-empty pattern. -/
def replaceAll (pat rep s : Str) : Str := replaceAllFuel pat rep s.length s

/-- `interface.py:498-502` (`_check_restrictions`), the per-restriction loop:
raises (".error") when a restriction evaluates false, and propagates the
evaluation error when `eval` itself raises. -/
def check_restrictions_list (params : Params) : List BExpr → Except Str Unit
  | [] => .ok ()
  | r :: rest =>
    match r.eval params with
    | none => .error ("restriction evaluation raised".toList)
    | some false => .error ("config fails restriction".toList)
    | some true => check_restrictions_list params rest

/-- `interface.py:498-502` (`_check_restrictions`). -/
def check_restrictions (restrictions : Option (List BExpr)) (params : Params) :
    Except Str Unit :=
  match restrictions with
  | none => .ok ()
  | some rs => check_restrictions_list params rs

/-- `interface.py:290`: `itertools.product(*tune_params.values())` — the
cartesian product of the candidate lists, first list varying slowest. -/
def cart_product : List (List Int) → List (List Int)
  | [] => [[]]
  | l :: ls => (l.map (fun v => (cart_product ls).map (fun e => v :: e))).flatten

/-- `interface.py:293-301`: the restriction-filtering pass over the parameter
space (configurations whose restriction check raises are removed; the
`try/except` makes any evaluation error a skip, not an abort). -/
def filtered_space (tune_params : List (Str × List Int))
    (restrictions : Option (List BExpr)) : List (List Int) :=
  (cart_product (tune_params.map (fun kv => kv.2))).filter
    (fun element =>
      (check_restrictions restrictions ((tune_params.map (fun kv => kv.1)).zip element)).isOk)

/-- `numpy.allclose(a, b, atol=1e-6)` on flattened (`ravel`) contents: numpy
keeps its default relative tolerance `rtol=1e-5`, so the elementwise test is
`|a - b| <= atol + rtol * |b|` (float literals modelled as exact rationals). -/
def allclose (a b : List ℚ) : Bool :=
  (a.zip b).all (fun p => decide (|p.1 - p.2| ≤ 1 / 1000000 + (1 / 100000) * |p.2|))

/-- `opencl.py:99-107` (`OpenCLFunctions.benchmark`), the timing aggregation:
`times = sorted(times); return numpy.mean(times[1:-1])`. -/
def benchmark_average (times : List ℚ) : ℚ :=
  let sortedTimes := times.mergeSort (fun a b => decide (a ≤ b))
  let trimmed := (sortedTimes.drop 1).dropLast
  trimmed.sum / (trimmed.length : ℚ)

/-- Python `pat in msg` (substring test) used to classify backend failures. -/
def containsSub (pat s : Str) : Bool := decide (pat <:+: s)

def shared_data_msg : Str := "uses too much shared data".toList
def resources_msg : Str := "too many resources requested for launch".toList
def out_of_resources_msg : Str := "OUT_OF_RESOURCES".toList

/-- External device backend, as the core observes it, keyed by the
per-configuration kernel name: the reported maximum threads per block, the
result of compiling each specialized kernel, the post-run host-visible
contents of each argument position, and the benchmark time. -/
structure DeviceInterface where
  max_threads : Int
  compile : Str → Str → Except Str Unit
  run_outputs : Str → List (List ℚ)
  bench_time : Str → Except Str ℚ

/-- `interface.py:343-347`, the body of the correctness-and-benchmark `try`:
when an answer is supplied, `_check_kernel_correctness` (`interface.py:515-529`)
runs the kernel, copies each checked argument back and compares it with
`numpy.allclose(..., atol=1e-6)`, raising
`"Error " + instance_string + " failed correctness check"` on mismatch;
then the configuration is benchmarked. -/
def try_verify_and_benchmark (dev : DeviceInterface) (name inst : Str)
    (answer : Option (List (Option (List ℚ)))) : Except Str ℚ :=
  match answer with
  | none => dev.bench_time name
  | some ans =>
    let outs := dev.run_outputs name
    let correct := (outs.zip ans).all (fun p =>
      match p.2 with
      | none => true
      | some expected => allclose p.1 expected)
    if correct then dev.bench_time name
    else .error ("Error ".toList ++ inst ++ " failed correctness check".toList)

/-- What processing one configuration does to the sweep. -/
inductive StepResult where
  | skipped
  | recorded (time : ℚ)
  | fatal (msg : Str)

/-- Outcome of one iteration of the `tune_kernel` loop: the kernel name passed
to the compiler (when compilation was attempted) and the resulting step. -/
structure ConfigOutcome where
  compiledName : Option Str
  result : StepResult

/-- `numpy.prod` on a 3-tuple of thread block dimensions. -/
def numpy_prod3 (t : Int × Int × Int) : Int := t.1 * t.2.1 * t.2.2

/-- One iteration of the `tune_kernel` parameter-space loop
(`interface.py:304-359`): thread-count pruning, grid computation, kernel
specialization and rename, compile (with the shared-memory skip), optional
correctness check plus benchmark (with the launch-resource skip). -/
def process_config (dev : DeviceInterface) (kernel_name original_kernel : Str)
    (problem_size : Int × Int) (grid_div_x grid_div_y : Option (List AExpr))
    (answer : Option (List (Option (List ℚ)))) (keys : List Str)
    (element : List Int) : ConfigOutcome :=
  let params : Params := keys.zip element
  let inst := instanceString (params.map (fun kv => kv.2))
  let threads := get_thread_block_dimensions params
  if numpy_prod3 threads > dev.max_threads then
    ⟨none, .skipped⟩
  else
    match get_grid_dimensions problem_size params grid_div_y grid_div_x with
    | none => ⟨none, .fatal ("grid divisor evaluation raised".toList)⟩
    | some grid =>
      let name := kernel_name ++ '_' :: inst
      let kstring := replaceAll kernel_name name
        (prepare_kernel_string original_kernel params grid)
      match dev.compile name kstring with
      | .error e =>
        if containsSub shared_data_msg e then ⟨some name, .skipped⟩
        else ⟨some name, .fatal e⟩
      | .ok _ =>
        match try_verify_and_benchmark dev name inst answer with
        | .error e =>
          if containsSub resources_msg e || containsSub out_of_resources_msg e then
            ⟨some name, .skipped⟩
          else ⟨some name, .fatal e⟩
        | .ok t => ⟨some name, .recorded t⟩

/-- The sweep's accumulated observable state: the result table (configuration
identity to measured time, in insertion order) and the names passed to the
compiler. -/
structure SweepState where
  results : List (Str × ℚ)
  compiled : List Str
deriving DecidableEq

deriving instance DecidableEq for Except

/-- The `tune_kernel` loop over the (already filtered) parameter space; a
fatal step aborts the whole sweep with the raised message. -/
def sweep_loop (dev : DeviceInterface) (kernel_name original_kernel : Str)
    (problem_size : Int × Int) (grid_div_x grid_div_y : Option (List AExpr))
    (answer : Option (List (Option (List ℚ)))) (keys : List Str) :
    List (List Int) → SweepState → Except Str SweepState
  | [], st => .ok st
  | element :: rest, st =>
    match process_config dev kernel_name original_kernel problem_size
      grid_div_x grid_div_y answer keys element with
    | ⟨copt, .skipped⟩ => sweep_loop dev kernel_name original_kernel problem_size
        grid_div_x grid_div_y answer keys rest ⟨st.results, st.compiled ++ copt.toList⟩
    | ⟨copt, .recorded t⟩ => sweep_loop dev kernel_name original_kernel problem_size
        grid_div_x grid_div_y answer keys rest
        ⟨st.results ++ [(instanceString (((keys.zip element)).map (fun kv => kv.2)), t)],
         st.compiled ++ copt.toList⟩
    | ⟨_, .fatal msg⟩ => .error msg

/-- `interface.py:165-372` (`tune_kernel`): the full sweep — cartesian
product, restriction filtering, then the per-configuration loop. -/
def tune_kernel (dev : DeviceInterface) (kernel_name original_kernel : Str)
    (problem_size : Int × Int) (tune_params : List (Str × List Int))
    (grid_div_x grid_div_y : Option (List AExpr))
    (restrictions : Option (List BExpr))
    (answer : Option (List (Option (List ℚ)))) : Except Str SweepState :=
  sweep_loop dev kernel_name original_kernel problem_size grid_div_x grid_div_y
    answer (tune_params.map (fun kv => kv.1))
    (filtered_space tune_params restrictions) ⟨[], []⟩

/-- A host-side kernel argument: a numpy scalar or a numpy array (contents in
`ℚ`, the model of the numeric payload). -/
inductive HostArg where
  | scalar (v : ℚ)
  | arr (vs : List ℚ)
deriving DecidableEq

/-- A staged device argument (`opencl.py:33-51`, `create_gpu_args`): arrays
become device buffers, scalars are passed through unchanged. -/
inductive GpuArg where
  | passthrough (v : ℚ)
  | buffer (vs : List ℚ)
deriving DecidableEq

/-- `opencl.py:44-51`: copy arrays to device buffers, pass scalars along. -/
def create_gpu_args : List HostArg → List GpuArg
  | [] => []
  | .scalar v :: rest => .passthrough v :: create_gpu_args rest
  | .arr vs :: rest => .buffer vs :: create_gpu_args rest

/-- `numpy.zeros_like(arg)`: a zero value of the argument's shape. -/
def zeros_like : HostArg → HostArg
  | .scalar _ => .scalar 0
  | .arr vs => .arr (vs.map (fun _ => 0))

/-- `opencl.py:149-159` (`memcpy_dtoh`): copies a buffer's contents into the
destination; a no-op when the source is not a device buffer. -/
def memcpy_dtoh (dest : HostArg) (src : GpuArg) : HostArg :=
  match src with
  | .buffer vs => .arr vs
  | .passthrough _ => dest

/-- The kernel launch as the host observes it: the device mutates only device
buffers (position `i`'s contents become `effect i contents`); pass-through
scalars cannot be written by the device. -/
def apply_kernel_effect (effect : Nat → List ℚ → List ℚ) :
    Nat → List GpuArg → List GpuArg
  | _, [] => []
  | i, .buffer vs :: rest => .buffer (effect i vs) :: apply_kernel_effect effect (i + 1) rest
  | i, .passthrough v :: rest => .passthrough v :: apply_kernel_effect effect (i + 1) rest

/-- `interface.py:376-446` (`run_kernel`), the argument round-trip: stage the
arguments, run the kernel once, then for each position append
`numpy.zeros_like(arg)` and `memcpy_dtoh` into it from the staged argument. -/
def run_kernel (effect : Nat → List ℚ → List ℚ) (arguments : List HostArg) :
    List HostArg :=
  let gpu_args := apply_kernel_effect effect 0 (create_gpu_args arguments)
  (arguments.zip gpu_args).map (fun p => memcpy_dtoh (zeros_like p.1) p.2)

theorem mem_cart_product (ls : List (List Int)) (e : List Int) :
    e ∈ cart_product ls ↔ List.Forall₂ (fun v l => v ∈ l) e ls := by
  induction ls generalizing e with
  | nil =>
    simp only [cart_product, List.mem_singleton]
    constructor
    · rintro rfl; exact List.Forall₂.nil
    · intro h; cases h; rfl
  | cons l ls ih =>
    simp only [cart_product, List.mem_flatten, List.mem_map]
    constructor
    · rintro ⟨sub, ⟨v, hv, rfl⟩, hmem⟩
      obtain ⟨e', he', rfl⟩ := List.mem_map.mp hmem
      exact List.Forall₂.cons hv ((ih e').mp he')
    · intro h
      cases h with
      | cons hv htail =>
        exact ⟨_, ⟨_, hv, rfl⟩, List.mem_map.mpr ⟨_, (ih _).mpr htail, rfl⟩⟩

theorem length_cart_product (ls : List (List Int)) :
    (cart_product ls).length = (ls.map List.length).prod := by
  induction ls with
  | nil => rfl
  | cons l ls ih =>
    simp only [cart_product, List.length_flatten, List.map_map, List.map_cons,
      List.prod_cons, Function.comp_def, List.length_map]
    rw [List.map_const', List.sum_replicate, smul_eq_mul, ih]

theorem length_of_mem_cart_product {ls : List (List Int)} {e : List Int}
    (h : e ∈ cart_product ls) : e.length = ls.length :=
  ((mem_cart_product ls e).mp h).length_eq

/-- C8: the generated parameter space is exactly the cartesian product of the
domain's candidate lists in declared key order, with the last key varying
fastest (the head list distributes outermost); every generated configuration
has one value per domain key, and the number of configurations equals the
product of the candidate-list lengths. -/
theorem C8_parameter_space_product (doms : List (Str × List Int)) :
    (∀ (l : List Int) (ls : List (List Int)),
      cart_product (l :: ls) =
        (l.map (fun v => (cart_product ls).map (fun e => v :: e))).flatten)
    ∧ (∀ e, e ∈ cart_product (doms.map (fun kv => kv.2)) ↔
        List.Forall₂ (fun v l => v ∈ l) e (doms.map (fun kv => kv.2)))
    ∧ (∀ e ∈ cart_product (doms.map (fun kv => kv.2)), e.length = doms.length)
    ∧ (cart_product (doms.map (fun kv => kv.2))).length
        = (doms.map (fun kv => kv.2.length)).prod := by
  refine ⟨fun l ls => rfl, fun e => mem_cart_product _ e, fun e he => ?_, ?_⟩
  · rw [length_of_mem_cart_product he, List.length_map]
  · rw [length_cart_product, List.map_map]
    rfl

/-- C8 witness: a concrete two-key domain. -/
theorem C8_parameter_space_product_witness :
    [10, 7] ∈ cart_product ([("a".toList, [10, 20]), ("b".toList, [7])].map (fun kv => kv.2))
    ∧ [10, 7].length = 2
    ∧ (cart_product ([("a".toList, [10, 20]), ("b".toList, [7])].map
        (fun kv => kv.2))).length = 2 := by
  have h := C8_parameter_space_product [("a".toList, [10, 20]), ("b".toList, [7])]
  have hmem : [10, 7] ∈ cart_product
      ([("a".toList, [10, 20]), ("b".toList, [7])].map (fun kv => kv.2)) := by decide
  exact ⟨hmem, h.2.2.1 [10, 7] hmem, by decide⟩

/-- C9: the per-configuration rewritten kernel name — the base name, an
underscore, and the underscore-joined textual values — never collides between
two distinct same-length value assignments drawn from the same domain. -/
theorem C9_kernel_name_no_collision (kernel_name : Str) (v w : List Int)
    (hlen : v.length = w.length) (hne : v ≠ w) :
    kernel_name ++ '_' :: instanceString v ≠ kernel_name ++ '_' :: instanceString w := by
  intro h
  have hinst : instanceString v = instanceString w := by
    have := List.append_cancel_left h
    exact List.tail_eq_of_cons_eq this
  match v, w with
  | [], [] => exact hne rfl
  | [], _ :: _ => simp at hlen
  | _ :: _, [] => simp at hlen
  | a :: v', b :: w' =>
    exact hne (instanceString_injective _ _ (List.cons_ne_nil a v')
      (List.cons_ne_nil b w') hinst)

/-- C9 witness: two concrete distinct configurations. -/
theorem C9_kernel_name_no_collision_witness :
    "vec".toList ++ '_' :: instanceString [1, 2] ≠
      "vec".toList ++ '_' :: instanceString [12] ∨
    "vec".toList ++ '_' :: instanceString [1, 2] ≠
      "vec".toList ++ '_' :: instanceString [1, 3] :=
  Or.inr (C9_kernel_name_no_collision "vec".toList [1, 2] [1, 3] rfl (by decide))

theorem foldl_prepend (d : Str × Int → Str) (params : Params) (s : Str) :
    params.foldl (fun acc kv => d kv ++ acc) s = (params.reverse.map d).flatten ++ s := by
  induction params generalizing s with
  | nil => simp
  | cons kv rest ih =>
    rw [List.foldl_cons, ih (d kv ++ s)]
    simp [List.flatten_append]

/-- C3 counterexample: for source `"SRC"`, configuration `a=1, b=2` and grid
`(4,5)`, the specialized text does not start with the `grid_size_x` define —
the claimed physical order (grid_size_x, grid_size_y, params in domain order,
source) is not what `_prepare_kernel_string` produces. -/
theorem C3_layout_counterexample :
    prepare_kernel_string "SRC".toList [("a".toList, 1), ("b".toList, 2)] (4, 5) ≠
      defineLine grid_size_x_key 4 ++ defineLine grid_size_y_key 5 ++
        defineLine "a".toList 1 ++ defineLine "b".toList 2 ++ "SRC".toList := by
  decide

/-- C3 amended: the final physical line order of the specialized kernel is one
define per configuration parameter in reverse domain key order, then the
`grid_size_y` define, then the `grid_size_x` define, then the original source
(each prepend pushes the earlier prepends down, and the parameter defines are
prepended last, first key first). -/
theorem C3_specialized_kernel_layout (original_kernel : Str) (params : Params)
    (grid : Int × Int) :
    prepare_kernel_string original_kernel params grid =
      (params.reverse.map (fun kv => defineLine kv.1 kv.2)).flatten ++
        (defineLine grid_size_y_key grid.2 ++
          (defineLine grid_size_x_key grid.1 ++ original_kernel)) := by
  unfold prepare_kernel_string
  rw [foldl_prepend]

theorem pyInt_intCast (n : Int) : pyInt ((n : ℚ)) = n := by
  unfold pyInt
  by_cases h : ((n : ℚ)) < 0
  · rw [if_pos h, Int.ceil_intCast]
  · rw [if_neg h, Int.floor_intCast]

theorem get_grid_dimensions_both (problem_size : Int × Int) (params : Params)
    (gdx gdy : List AExpr) (dx dy : Int)
    (hx : prod_eval params gdx = some dx) (hy : prod_eval params gdy = some dy)
    (hdx : dx ≠ 0) (hdy : dy ≠ 0) :
    get_grid_dimensions problem_size params (some gdy) (some gdx) =
      some (⌈(problem_size.1 : ℚ) / (dx : ℚ)⌉, ⌈(problem_size.2 : ℚ) / (dy : ℚ)⌉) := by
  unfold get_grid_dimensions
  simp only [hx, hy]
  rw [if_neg (by simp [hdx, hdy])]

theorem get_grid_dimensions_y_default (problem_size : Int × Int) (params : Params)
    (gdx : List AExpr) (dx : Int)
    (hx : prod_eval params gdx = some dx) (hdx : dx ≠ 0) :
    get_grid_dimensions problem_size params none (some gdx) =
      some (⌈(problem_size.1 : ℚ) / (dx : ℚ)⌉, problem_size.2) := by
  unfold get_grid_dimensions
  simp only [hx]
  rw [if_neg (by simp [hdx])]
  norm_num

theorem get_grid_dimensions_x_default (problem_size : Int × Int) (params : Params)
    (gdy : Option (List AExpr)) (h : (lookupParam params block_size_x_key).isSome) :
    get_grid_dimensions problem_size params gdy none =
      get_grid_dimensions problem_size params gdy (some [AExpr.var block_size_x_key]) := by
  unfold get_grid_dimensions
  rw [if_pos h]

theorem get_grid_dimensions_x_absent (problem_size : Int × Int) (params : Params)
    (gdy : List AExpr) (dy : Int) (h : lookupParam params block_size_x_key = none)
    (hy : prod_eval params gdy = some dy) (hdy : dy ≠ 0) :
    get_grid_dimensions problem_size params (some gdy) none =
      some (problem_size.1, ⌈(problem_size.2 : ℚ) / (dy : ℚ)⌉) := by
  unfold get_grid_dimensions
  rw [h]
  simp only [Option.isSome_none, Bool.false_eq_true, if_false, hy]
  rw [if_neg (by simp [hdy])]
  norm_num

/-- C1: for each axis with a supplied divisor list the grid is the problem
size divided by the evaluated divisor product, real division rounded up; a
missing `grid_div_x` defaults to `["block_size_x"]` exactly when
`block_size_x` is bound in the configuration; a missing `grid_div_y` uses
divisor product 1; and the three concrete cases of the spec. -/
theorem C1_grid_dimensions :
    (∀ (problem_size : Int × Int) (params : Params) (gdx gdy : List AExpr) (dx dy : Int),
      prod_eval params gdx = some dx → prod_eval params gdy = some dy →
      dx ≠ 0 → dy ≠ 0 →
      get_grid_dimensions problem_size params (some gdy) (some gdx) =
        some (⌈(problem_size.1 : ℚ) / (dx : ℚ)⌉, ⌈(problem_size.2 : ℚ) / (dy : ℚ)⌉))
    ∧ (∀ (problem_size : Int × Int) (params : Params) (gdx : List AExpr) (dx : Int),
      prod_eval params gdx = some dx → dx ≠ 0 →
      get_grid_dimensions problem_size params none (some gdx) =
        some (⌈(problem_size.1 : ℚ) / (dx : ℚ)⌉, problem_size.2))
    ∧ (∀ (problem_size : Int × Int) (params : Params) (gdy : Option (List AExpr)),
      (lookupParam params block_size_x_key).isSome →
      get_grid_dimensions problem_size params gdy none =
        get_grid_dimensions problem_size params gdy (some [AExpr.var block_size_x_key]))
    ∧ get_grid_dimensions (1024, 1024) [("block_x".toList, 41), ("block_y".toList, 37)]
        (some [AExpr.var "block_y".toList]) (some [AExpr.var "block_x".toList]) =
        some (25, 28)
    ∧ get_grid_dimensions (1024, 1024) [("block_x".toList, 41), ("block_y".toList, 37)]
        none (some [AExpr.var "block_x".toList]) = some (25, 1024)
    ∧ get_grid_dimensions (1024, 1024) [("block_x".toList, 41), ("block_y".toList, 37)]
        (some [AExpr.var "block_y".toList]) none = some (1024, 28) := by
  have hc1 : (⌈((1024 : Int) : ℚ) / ((41 : Int) : ℚ)⌉ : Int) = 25 := by
    rw [Int.ceil_eq_iff]; norm_num
  have hc2 : (⌈((1024 : Int) : ℚ) / ((37 : Int) : ℚ)⌉ : Int) = 28 := by
    rw [Int.ceil_eq_iff]; norm_num
  refine ⟨get_grid_dimensions_both, get_grid_dimensions_y_default, get_grid_dimensions_x_default, ?_, ?_, ?_⟩
  · rw [get_grid_dimensions_both (1024, 1024)
      [("block_x".toList, 41), ("block_y".toList, 37)]
      [AExpr.var "block_x".toList] [AExpr.var "block_y".toList] 41 37 rfl rfl
      (by decide) (by decide)]
    rw [show ((1024, 1024) : Int × Int).1 = (1024 : Int) from rfl,
      show ((1024, 1024) : Int × Int).2 = (1024 : Int) from rfl, hc1, hc2]
  · rw [get_grid_dimensions_y_default (1024, 1024)
      [("block_x".toList, 41), ("block_y".toList, 37)]
      [AExpr.var "block_x".toList] 41 rfl (by decide)]
    rw [show ((1024, 1024) : Int × Int).1 = (1024 : Int) from rfl, hc1]
  · rw [get_grid_dimensions_x_absent (1024, 1024)
      [("block_x".toList, 41), ("block_y".toList, 37)]
      [AExpr.var "block_y".toList] 37 rfl rfl (by decide)]
    rw [show ((1024, 1024) : Int × Int).2 = (1024 : Int) from rfl, hc2]

/-- C1 witness: the first branch of the claim applied to a configuration-free
divisor pair. -/
theorem C1_grid_dimensions_witness :
    get_grid_dimensions (10, 10) [] (some [AExpr.num 2]) (some [AExpr.num 3]) =
      some (⌈((10 : Int) : ℚ) / ((3 : Int) : ℚ)⌉, ⌈((10 : Int) : ℚ) / ((2 : Int) : ℚ)⌉) :=
  C1_grid_dimensions.1 (10, 10) [] [AExpr.num 3] [AExpr.num 2] 3 2 rfl rfl
    (by decide) (by decide)

theorem check_restrictions_list_isOk (params : Params) (rs : List BExpr) :
    (check_restrictions_list params rs).isOk = true ↔
      ∀ r ∈ rs, r.eval params = some true := by
  induction rs with
  | nil => simp [check_restrictions_list, Except.isOk, Except.toBool]
  | cons r rest ih =>
    rw [check_restrictions_list]
    cases heval : r.eval params with
    | none =>
      simp only [Except.isOk, Except.toBool]
      constructor
      · intro h; cases h
      · intro h
        have := h r (List.mem_cons_self r rest)
        rw [heval] at this
        cases this
    | some b =>
      cases b with
      | false =>
        simp only [Except.isOk, Except.toBool]
        constructor
        · intro h; cases h
        · intro h
          have := h r (List.mem_cons_self r rest)
          rw [heval] at this
          cases this
      | true =>
        rw [ih]
        constructor
        · intro h r' hr'
          rcases List.mem_cons.mp hr' with rfl | hmem
          · exact heval
          · exact h r' hmem
        · intro h r' hr'
          exact h r' (List.mem_cons_of_mem r hr')

/-- C2: a configuration survives the restriction-filtering pass iff it is in
the generated space and every restriction evaluates to true against its
bindings; an evaluation error (unknown name, malformed expression) drops the
configuration instead of aborting; with no restrictions supplied the whole
space survives. -/
theorem C2_restriction_filtering :
    (∀ (tune_params : List (Str × List Int)) (rs : List BExpr) (e : List Int),
      e ∈ filtered_space tune_params (some rs) ↔
        e ∈ cart_product (tune_params.map (fun kv => kv.2)) ∧
          ∀ r ∈ rs, r.eval ((tune_params.map (fun kv => kv.1)).zip e) = some true)
    ∧ (∀ tune_params : List (Str × List Int),
      filtered_space tune_params none = cart_product (tune_params.map (fun kv => kv.2)))
    ∧ (∀ (tune_params : List (Str × List Int)) (rs : List BExpr) (e : List Int) (r : BExpr),
      r ∈ rs → r.eval ((tune_params.map (fun kv => kv.1)).zip e) = none →
      e ∉ filtered_space tune_params (some rs)) := by
  have hmem : ∀ (tune_params : List (Str × List Int)) (rs : List BExpr) (e : List Int),
      e ∈ filtered_space tune_params (some rs) ↔
        e ∈ cart_product (tune_params.map (fun kv => kv.2)) ∧
          ∀ r ∈ rs, r.eval ((tune_params.map (fun kv => kv.1)).zip e) = some true := by
    intro tune_params rs e
    unfold filtered_space
    rw [List.mem_filter, check_restrictions]
    rw [check_restrictions_list_isOk]
  refine ⟨hmem, ?_, ?_⟩
  · intro tune_params
    unfold filtered_space
    rw [List.filter_eq_self.mpr]
    intro e _
    rfl
  · intro tune_params rs e r hr heval hmem'
    have := ((hmem tune_params rs e).mp hmem').2 r hr
    rw [heval] at this
    cases this

/-- C2 witness: with domain `x ∈ [1,2]` and restriction `x > 1`, the
configuration `[2]` is retained. -/
theorem C2_restriction_filtering_witness :
    [2] ∈ filtered_space [("x".toList, [1, 2])]
      (some [BExpr.cmp CmpOp.gt (AExpr.var "x".toList) (AExpr.num 1)]) := by
  refine (C2_restriction_filtering.1 [("x".toList, [1, 2])]
    [BExpr.cmp CmpOp.gt (AExpr.var "x".toList) (AExpr.num 1)] [2]).mpr ⟨by decide, ?_⟩
  intro r hr
  rcases List.mem_singleton.mp hr with rfl
  decide

theorem sorted_mergeSort_le (l : List ℚ) :
    List.Sorted (· ≤ ·) (l.mergeSort (fun a b => decide (a ≤ b))) := by
  have h := @List.sorted_mergeSort ℚ (fun a b : ℚ => decide (a ≤ b))
    (fun a b c hab hbc => by
      simp only [decide_eq_true_eq] at hab hbc ⊢
      exact le_trans hab hbc)
    (fun a b => by simp [le_total]) l
  exact h.imp (fun hab => by simpa using hab)

theorem le_getLast_of_sorted :
    ∀ (l : List ℚ) (hne : l ≠ []), List.Sorted (· ≤ ·) l →
      ∀ x ∈ l, x ≤ l.getLast hne := by
  intro l
  induction l with
  | nil => intro h; cases h rfl
  | cons a t ih =>
    intro hne hs x hx
    match t with
    | [] =>
      rcases List.mem_singleton.mp hx with rfl
      exact le_refl _
    | b :: t' =>
      rw [List.getLast_cons (List.cons_ne_nil b t')]
      rcases List.mem_cons.mp hx with rfl | hx'
      · exact List.rel_of_sorted_cons hs _ (List.getLast_mem (List.cons_ne_nil b t'))
      · exact ih (List.cons_ne_nil b t') hs.of_cons x hx'

theorem coe_concat_erase (mid : List ℚ) (b : ℚ) :
    ((mid ++ [b] : List ℚ) : Multiset ℚ).erase b = ↑mid := by
  have h : ((mid ++ [b] : List ℚ) : Multiset ℚ) = b ::ₘ ↑mid := by
    rw [← Multiset.coe_add, add_comm, Multiset.coe_add, List.singleton_append,
      ← Multiset.cons_coe]
  rw [h, Multiset.erase_cons_head]

theorem benchmark_average_trimmed (ts : List ℚ) (mn mx : ℚ) (h7 : ts.length = 7)
    (hmn : mn ∈ ts) (hmx : mx ∈ ts)
    (hlo : ∀ x ∈ ts, mn ≤ x) (hhi : ∀ x ∈ ts, x ≤ mx) :
    benchmark_average ts = (((ts : Multiset ℚ).erase mn).erase mx).sum / 5 := by
  have hperm : (ts.mergeSort (fun a b => decide (a ≤ b))).Perm ts :=
    List.mergeSort_perm ts _
  have hsorted : List.Sorted (· ≤ ·) (ts.mergeSort (fun a b => decide (a ≤ b))) :=
    sorted_mergeSort_le ts
  have hslen : (ts.mergeSort (fun a b => decide (a ≤ b))).length = 7 :=
    hperm.length_eq.trans h7
  obtain ⟨a, t, hcons⟩ := List.exists_cons_of_ne_nil
    (show ts.mergeSort (fun a b => decide (a ≤ b)) ≠ [] by
      intro h; rw [h] at hslen; cases hslen)
  have htne : t ≠ [] := by
    intro h
    rw [hcons, h] at hslen
    cases hslen
  obtain ⟨mid, b, ht⟩ : ∃ mid b, t = mid ++ [b] :=
    ⟨t.dropLast, t.getLast htne, (List.dropLast_append_getLast htne).symm⟩
  rw [ht] at hcons
  -- the sorted head is the minimum
  have hmem_s : ∀ x, x ∈ ts ↔ x ∈ a :: (mid ++ [b]) := by
    intro x
    rw [← hcons]
    exact (hperm.mem_iff).symm
  have hsorted' : List.Sorted (· ≤ ·) (a :: (mid ++ [b])) := hcons ▸ hsorted
  have ha_mn : a = mn := by
    have h1 : mn ≤ a := hlo a ((hmem_s a).mpr (List.mem_cons_self a _))
    have h2 : a ≤ mn := by
      rcases List.mem_cons.mp ((hmem_s mn).mp hmn) with rfl | hmem'
      · exact le_refl _
      · exact List.rel_of_sorted_cons hsorted' _ hmem'
    exact le_antisymm h2 h1
  have hb_mx : b = mx := by
    have hlast : (a :: (mid ++ [b])).getLast (List.cons_ne_nil a _) = b := by
      rw [List.getLast_cons (by simp : mid ++ [b] ≠ [])]
      exact List.getLast_append _
    have h1 : b ≤ mx := hhi b ((hmem_s b).mpr (by simp))
    have h2 : mx ≤ b := by
      have := le_getLast_of_sorted (a :: (mid ++ [b])) (List.cons_ne_nil a _)
        hsorted' mx ((hmem_s mx).mp hmx)
      rwa [hlast] at this
    exact le_antisymm h1 h2
  have hcoe : (ts : Multiset ℚ) = ↑(a :: (mid ++ [b])) := by
    rw [Multiset.coe_eq_coe, ← hcons]
    exact hperm.symm
  have herase : (((ts : Multiset ℚ)).erase mn).erase mx = ↑mid := by
    rw [hcoe, ← ha_mn, ← hb_mx, ← Multiset.cons_coe, Multiset.erase_cons_head,
      coe_concat_erase]
  have hmidlen : mid.length = 5 := by
    rw [hcons] at hslen
    simp at hslen
    omega
  have htrim : ((a :: (mid ++ [b])).drop 1).dropLast = mid := by
    rw [List.drop_one]
    exact List.dropLast_concat
  rw [show benchmark_average ts =
      (((ts.mergeSort (fun a b => decide (a ≤ b))).drop 1).dropLast).sum /
        ((((ts.mergeSort (fun a b => decide (a ≤ b))).drop 1).dropLast).length : ℚ)
    from rfl]
  rw [hcons, htrim, herase, Multiset.sum_coe, hmidlen]
  norm_num

/-- C4: for the default 7 timing samples, the benchmark reports the arithmetic
mean of the samples after discarding exactly one minimum and one maximum
occurrence; in particular `[5,1,9,3,4,2,8]` yields the mean of `[2,3,4,5,8]`. -/
theorem C4_benchmark_robust_average :
    (∀ (ts : List ℚ) (mn mx : ℚ), ts.length = 7 → mn ∈ ts → mx ∈ ts →
      (∀ x ∈ ts, mn ≤ x) → (∀ x ∈ ts, x ≤ mx) →
      benchmark_average ts = (((ts : Multiset ℚ).erase mn).erase mx).sum / 5)
    ∧ benchmark_average [5, 1, 9, 3, 4, 2, 8] = (2 + 3 + 4 + 5 + 8) / 5 := by
  refine ⟨fun ts mn mx h7 hmn hmx hlo hhi =>
    benchmark_average_trimmed ts mn mx h7 hmn hmx hlo hhi, ?_⟩
  rw [benchmark_average_trimmed [5, 1, 9, 3, 4, 2, 8] 1 9 rfl (by decide) (by decide)
    (by decide) (by decide)]
  rw [Multiset.coe_erase, Multiset.coe_erase,
    show ((([5, 1, 9, 3, 4, 2, 8] : List ℚ).erase 1).erase 9 : List ℚ) =
      [5, 3, 4, 2, 8] from by decide]
  rw [Multiset.sum_coe]
  norm_num

/-- C4 witness: the general statement applied to the spec's sample list. -/
theorem C4_benchmark_robust_average_witness :
    benchmark_average [5, 1, 9, 3, 4, 2, 8] =
      (((([5, 1, 9, 3, 4, 2, 8] : List ℚ) : Multiset ℚ).erase 1).erase 9).sum / 5 :=
  C4_benchmark_robust_average.1 [5, 1, 9, 3, 4, 2, 8] 1 9 rfl (by decide) (by decide)
    (by decide) (by decide)

theorem run_kernel_aux (effect : Nat → List ℚ → List ℚ) :
    ∀ (args : List HostArg) (k i : Nat),
      ((args.zip (apply_kernel_effect effect k (create_gpu_args args))).map
        (fun p => memcpy_dtoh (zeros_like p.1) p.2))[i]? =
      (args[i]?).map (fun a =>
        match a with
        | .scalar _ => .scalar 0
        | .arr vs => .arr (effect (k + i) vs)) := by
  intro args
  induction args with
  | nil => intro k i; simp
  | cons a rest ih =>
    intro k i
    match a with
    | .scalar v =>
      rw [show create_gpu_args (HostArg.scalar v :: rest) =
          .passthrough v :: create_gpu_args rest from rfl,
        show apply_kernel_effect effect k (.passthrough v :: create_gpu_args rest) =
          .passthrough v :: apply_kernel_effect effect (k + 1) (create_gpu_args rest)
          from rfl,
        List.zip_cons_cons, List.map_cons]
      match i with
      | 0 => rw [List.getElem?_cons_zero, List.getElem?_cons_zero]; rfl
      | j + 1 =>
        rw [List.getElem?_cons_succ, List.getElem?_cons_succ, ih (k + 1) j]
        have : k + 1 + j = k + (j + 1) := by omega
        rw [this]
    | .arr vs =>
      rw [show create_gpu_args (HostArg.arr vs :: rest) =
          .buffer vs :: create_gpu_args rest from rfl,
        show apply_kernel_effect effect k (.buffer vs :: create_gpu_args rest) =
          .buffer (effect k vs) :: apply_kernel_effect effect (k + 1) (create_gpu_args rest)
          from rfl,
        List.zip_cons_cons, List.map_cons]
      match i with
      | 0 => rw [List.getElem?_cons_zero, List.getElem?_cons_zero]; rfl
      | j + 1 =>
        rw [List.getElem?_cons_succ, List.getElem?_cons_succ, ih (k + 1) j]
        have : k + 1 + j = k + (j + 1) := by omega
        rw [this]

/-- C10: `run_kernel` returns, at every scalar-argument position, a zero of
the scalar's shape — not the scalar's value — because the device-to-host copy
is a no-op for non-buffer arguments; array positions receive the copied-back
device contents. -/
theorem C10_run_kernel_scalar_positions_zero :
    (∀ (effect : Nat → List ℚ → List ℚ) (args : List HostArg) (i : Nat) (v : ℚ),
      args[i]? = some (.scalar v) →
      (run_kernel effect args)[i]? = some (.scalar 0))
    ∧ (∀ (effect : Nat → List ℚ → List ℚ) (args : List HostArg) (i : Nat) (vs : List ℚ),
      args[i]? = some (.arr vs) →
      (run_kernel effect args)[i]? = some (.arr (effect i vs))) := by
  constructor
  · intro effect args i v h
    unfold run_kernel
    rw [run_kernel_aux effect args 0 i, h]
    rfl
  · intro effect args i vs h
    unfold run_kernel
    rw [run_kernel_aux effect args 0 i, h]
    rw [show (0 : Nat) + i = i from by omega]
    rfl

/-- C10 witness: a scalar at position 0 comes back as zero while the array at
position 1 comes back with the device contents. -/
theorem C10_run_kernel_scalar_positions_zero_witness :
    (run_kernel (fun _ vs => vs.reverse) [HostArg.scalar 5, HostArg.arr [1, 2]])[0]? =
      some (HostArg.scalar 0)
    ∧ (run_kernel (fun _ vs => vs.reverse) [HostArg.scalar 5, HostArg.arr [1, 2]])[1]? =
      some (HostArg.arr [2, 1]) :=
  ⟨C10_run_kernel_scalar_positions_zero.1 (fun _ vs => vs.reverse)
      [HostArg.scalar 5, HostArg.arr [1, 2]] 0 5 rfl,
   C10_run_kernel_scalar_positions_zero.2 (fun _ vs => vs.reverse)
      [HostArg.scalar 5, HostArg.arr [1, 2]] 1 [1, 2] rfl⟩

theorem process_config_skipped_of_threads (dev : DeviceInterface)
    (kernel_name original_kernel : Str) (problem_size : Int × Int)
    (grid_div_x grid_div_y : Option (List AExpr))
    (answer : Option (List (Option (List ℚ)))) (keys : List Str) (element : List Int)
    (h : numpy_prod3 (get_thread_block_dimensions (keys.zip element)) > dev.max_threads) :
    process_config dev kernel_name original_kernel problem_size grid_div_x grid_div_y
      answer keys element = ⟨none, .skipped⟩ := by
  simp only [process_config]
  rw [if_pos h]

theorem sweep_loop_cons_skipped_none (dev : DeviceInterface)
    (kernel_name original_kernel : Str) (problem_size : Int × Int)
    (grid_div_x grid_div_y : Option (List AExpr))
    (answer : Option (List (Option (List ℚ)))) (keys : List Str)
    (element : List Int) (rest : List (List Int)) (st : SweepState)
    (h : process_config dev kernel_name original_kernel problem_size grid_div_x grid_div_y
      answer keys element = ⟨none, .skipped⟩) :
    sweep_loop dev kernel_name original_kernel problem_size grid_div_x grid_div_y
      answer keys (element :: rest) st =
    sweep_loop dev kernel_name original_kernel problem_size grid_div_x grid_div_y
      answer keys rest st := by
  rw [sweep_loop, h]
  simp [Option.toList]

theorem process_config_recorded_threads_ok (dev : DeviceInterface)
    (kernel_name original_kernel : Str) (problem_size : Int × Int)
    (grid_div_x grid_div_y : Option (List AExpr))
    (answer : Option (List (Option (List ℚ)))) (keys : List Str) (element : List Int)
    (t : ℚ)
    (h : (process_config dev kernel_name original_kernel problem_size grid_div_x grid_div_y
      answer keys element).result = .recorded t) :
    ¬ numpy_prod3 (get_thread_block_dimensions (keys.zip element)) > dev.max_threads := by
  intro hgt
  rw [process_config_skipped_of_threads dev kernel_name original_kernel problem_size
    grid_div_x grid_div_y answer keys element hgt] at h
  cases h

theorem process_config_compiledName (dev : DeviceInterface)
    (kernel_name original_kernel : Str) (problem_size : Int × Int)
    (grid_div_x grid_div_y : Option (List AExpr))
    (answer : Option (List (Option (List ℚ)))) (keys : List Str) (element : List Int) :
    (process_config dev kernel_name original_kernel problem_size grid_div_x grid_div_y
      answer keys element).compiledName = none ∨
    ((process_config dev kernel_name original_kernel problem_size grid_div_x grid_div_y
      answer keys element).compiledName =
        some (kernel_name ++ '_' :: instanceString ((keys.zip element).map (fun kv => kv.2))) ∧
      ¬ numpy_prod3 (get_thread_block_dimensions (keys.zip element)) > dev.max_threads) := by
  by_cases hth : numpy_prod3 (get_thread_block_dimensions (keys.zip element)) > dev.max_threads
  · rw [process_config_skipped_of_threads dev kernel_name original_kernel problem_size
      grid_div_x grid_div_y answer keys element hth]
    exact Or.inl rfl
  · simp only [process_config]
    rw [if_neg hth]
    split
    · exact Or.inl rfl
    · split
      · split
        · exact Or.inr ⟨rfl, hth⟩
        · exact Or.inr ⟨rfl, hth⟩
      · split
        · split
          · exact Or.inr ⟨rfl, hth⟩
          · exact Or.inr ⟨rfl, hth⟩
        · exact Or.inr ⟨rfl, hth⟩

theorem sweep_loop_ok_results_keys (dev : DeviceInterface)
    (kernel_name original_kernel : Str) (problem_size : Int × Int)
    (grid_div_x grid_div_y : Option (List AExpr))
    (answer : Option (List (Option (List ℚ)))) (keys : List Str) :
    ∀ (L : List (List Int)) (st out : SweepState),
      sweep_loop dev kernel_name original_kernel problem_size grid_div_x grid_div_y
        answer keys L st = .ok out →
      ∀ key ∈ out.results.map Prod.fst,
        key ∈ st.results.map Prod.fst ∨
        ∃ e ∈ L, key = instanceString ((keys.zip e).map (fun kv => kv.2)) ∧
          ¬ numpy_prod3 (get_thread_block_dimensions (keys.zip e)) > dev.max_threads := by
  intro L
  induction L with
  | nil =>
    intro st out h key hkey
    rw [sweep_loop] at h
    cases h
    exact Or.inl hkey
  | cons e rest ih =>
    intro st out h key hkey
    rw [sweep_loop] at h
    split at h
    · rename_i copt heq
      rcases ih _ _ h key hkey with hin | ⟨e', he', hk⟩
      · exact Or.inl hin
      · exact Or.inr ⟨e', List.mem_cons_of_mem _ he', hk⟩
    · rename_i copt t heq
      rcases ih _ _ h key hkey with hin | ⟨e', he', hk⟩
      · rw [List.map_append] at hin
        rcases List.mem_append.mp hin with h1 | h2
        · exact Or.inl h1
        · refine Or.inr ⟨e, List.mem_cons_self _ _, by simpa using h2, ?_⟩
          exact process_config_recorded_threads_ok dev kernel_name original_kernel
            problem_size grid_div_x grid_div_y answer keys e t (by rw [heq])
      · exact Or.inr ⟨e', List.mem_cons_of_mem _ he', hk⟩
    · rename_i copt msg heq
      cases h

theorem sweep_loop_ok_compiled (dev : DeviceInterface)
    (kernel_name original_kernel : Str) (problem_size : Int × Int)
    (grid_div_x grid_div_y : Option (List AExpr))
    (answer : Option (List (Option (List ℚ)))) (keys : List Str) :
    ∀ (L : List (List Int)) (st out : SweepState),
      sweep_loop dev kernel_name original_kernel problem_size grid_div_x grid_div_y
        answer keys L st = .ok out →
      ∀ nm ∈ out.compiled,
        nm ∈ st.compiled ∨
        ∃ e ∈ L, (process_config dev kernel_name original_kernel problem_size grid_div_x
          grid_div_y answer keys e).compiledName = some nm := by
  intro L
  induction L with
  | nil =>
    intro st out h nm hnm
    rw [sweep_loop] at h
    cases h
    exact Or.inl hnm
  | cons e rest ih =>
    intro st out h nm hnm
    rw [sweep_loop] at h
    split at h
    · rename_i copt heq
      rcases ih _ _ h nm hnm with hin | ⟨e', he', hk⟩
      · rcases List.mem_append.mp hin with h1 | h2
        · exact Or.inl h1
        · refine Or.inr ⟨e, List.mem_cons_self _ _, ?_⟩
          rw [heq]
          cases copt with
          | none => cases h2
          | some nm' =>
            rcases List.mem_singleton.mp h2 with rfl
            rfl
      · exact Or.inr ⟨e', List.mem_cons_of_mem _ he', hk⟩
    · rename_i copt t heq
      rcases ih _ _ h nm hnm with hin | ⟨e', he', hk⟩
      · rcases List.mem_append.mp hin with h1 | h2
        · exact Or.inl h1
        · refine Or.inr ⟨e, List.mem_cons_self _ _, ?_⟩
          rw [heq]
          cases copt with
          | none => cases h2
          | some nm' =>
            rcases List.mem_singleton.mp h2 with rfl
            rfl
      · exact Or.inr ⟨e', List.mem_cons_of_mem _ he', hk⟩
    · rename_i copt msg heq
      cases h

theorem instanceString_inj_of_len (e1 e2 : List Int) (hlen : e1.length = e2.length)
    (h : instanceString e1 = instanceString e2) : e1 = e2 := by
  match e1, e2, hlen with
  | [], [], _ => rfl
  | a :: e1', b :: e2', _ =>
    exact instanceString_injective _ _ (List.cons_ne_nil a e1') (List.cons_ne_nil b e2') h

set_option maxHeartbeats 1000000 in
/-- C7: a configuration whose thread-block product (with defaults 256/1/1)
exceeds the device's reported maximum is skipped: processing it is a no-op on
the sweep (no error, nothing compiled, nothing recorded), and its identity
appears neither among the result keys nor among the compiled kernel names of
a completed sweep. -/
theorem C7_too_many_threads_skipped (dev : DeviceInterface)
    (kernel_name original_kernel : Str) (problem_size : Int × Int)
    (tune_params : List (Str × List Int))
    (grid_div_x grid_div_y : Option (List AExpr))
    (restrictions : Option (List BExpr)) (answer : Option (List (Option (List ℚ))))
    (element : List Int)
    (hthreads : numpy_prod3 (get_thread_block_dimensions
      ((tune_params.map (fun kv => kv.1)).zip element)) > dev.max_threads) :
    (∀ (rest : List (List Int)) (st : SweepState),
      sweep_loop dev kernel_name original_kernel problem_size grid_div_x grid_div_y answer
        (tune_params.map (fun kv => kv.1)) (element :: rest) st =
      sweep_loop dev kernel_name original_kernel problem_size grid_div_x grid_div_y answer
        (tune_params.map (fun kv => kv.1)) rest st)
    ∧ (element ∈ cart_product (tune_params.map (fun kv => kv.2)) →
      ∀ out, tune_kernel dev kernel_name original_kernel problem_size tune_params
          grid_div_x grid_div_y restrictions answer = .ok out →
        instanceString (((tune_params.map (fun kv => kv.1)).zip element).map (fun kv => kv.2))
          ∉ out.results.map Prod.fst ∧
        (kernel_name ++ '_' :: instanceString
            (((tune_params.map (fun kv => kv.1)).zip element).map (fun kv => kv.2)))
          ∉ out.compiled) := by
  have hlen_e : ∀ e' ∈ cart_product (tune_params.map (fun kv => kv.2)),
      e'.length = tune_params.length := by
    intro e' he'
    rw [length_of_mem_cart_product he', List.length_map]
  have hkeyslen : (tune_params.map (fun kv => kv.1)).length = tune_params.length :=
    List.length_map _ _
  constructor
  · intro rest st
    exact sweep_loop_cons_skipped_none dev kernel_name original_kernel problem_size
      grid_div_x grid_div_y answer (tune_params.map (fun kv => kv.1)) element rest st
      (process_config_skipped_of_threads dev kernel_name original_kernel problem_size
        grid_div_x grid_div_y answer (tune_params.map (fun kv => kv.1)) element hthreads)
  · intro hmem out hok
    unfold tune_kernel at hok
    have helem_len : element.length = tune_params.length := hlen_e element hmem
    constructor
    · intro hkey
      rcases sweep_loop_ok_results_keys dev kernel_name original_kernel problem_size
        grid_div_x grid_div_y answer (tune_params.map (fun kv => kv.1))
        (filtered_space tune_params restrictions) ⟨[], []⟩ out hok _ hkey with hin | ⟨e', he', hk, hok'⟩
      · cases hin
      · have he'cart : e' ∈ cart_product (tune_params.map (fun kv => kv.2)) :=
          (List.mem_filter.mp he').1
        have he'len : e'.length = tune_params.length := hlen_e e' he'cart
        have : element = e' := by
          apply instanceString_inj_of_len element e' (by omega)
          rw [← List.map_snd_zip (tune_params.map (fun kv => kv.1)) element (by omega),
            ← List.map_snd_zip (tune_params.map (fun kv => kv.1)) e' (by omega)]
          exact hk
        rw [← this] at hok'
        exact hok' hthreads
    · intro hnm
      rcases sweep_loop_ok_compiled dev kernel_name original_kernel problem_size
        grid_div_x grid_div_y answer (tune_params.map (fun kv => kv.1))
        (filtered_space tune_params restrictions) ⟨[], []⟩ out hok _ hnm with hin | ⟨e', he', hk⟩
      · cases hin
      · have he'cart : e' ∈ cart_product (tune_params.map (fun kv => kv.2)) :=
          (List.mem_filter.mp he').1
        have he'len : e'.length = tune_params.length := hlen_e e' he'cart
        rcases process_config_compiledName dev kernel_name original_kernel problem_size
          grid_div_x grid_div_y answer (tune_params.map (fun kv => kv.1)) e' with hnone | ⟨hsome, hok'⟩
        · rw [hnone] at hk
          cases hk
        · rw [hsome] at hk
          have hname := Option.some_injective _ hk
          have hinst : instanceString (((tune_params.map (fun kv => kv.1)).zip e').map
              (fun kv => kv.2)) = instanceString
              (((tune_params.map (fun kv => kv.1)).zip element).map (fun kv => kv.2)) :=
            List.tail_eq_of_cons_eq (List.append_cancel_left hname)
          have : e' = element := by
            apply instanceString_inj_of_len e' element (by omega)
            rw [← List.map_snd_zip (tune_params.map (fun kv => kv.1)) element (by omega),
              ← List.map_snd_zip (tune_params.map (fun kv => kv.1)) e' (by omega)]
            exact hinst
          rw [this] at hok'
          exact hok' hthreads

/-- C7 witness: a device with a 16-thread limit skips the single 256-thread
configuration, and the completed sweep records and compiles nothing. -/
theorem C7_too_many_threads_skipped_witness :
    instanceString ((([("block_size_x".toList, [256])].map (fun kv => kv.1)).zip [256]).map
        (fun kv => kv.2)) ∉
      (SweepState.mk [] []).results.map Prod.fst ∧
    ("vec".toList ++ '_' :: instanceString
        ((([("block_size_x".toList, [256])].map (fun kv => kv.1)).zip [256]).map
          (fun kv => kv.2))) ∉
      (SweepState.mk [] []).compiled := by
  have h := (C7_too_many_threads_skipped
    ⟨16, fun _ _ => .ok (), fun _ => [], fun _ => .ok 1⟩
    "vec".toList "SRC".toList (4, 4) [("block_size_x".toList, [256])]
    none none none none [256] (by decide)).2 (by decide) ⟨[], []⟩ (by decide)
  exact h

/-- C5 counterexample: a restriction over an unknown name raises at evaluation
time, yet the sweep does not abort — the configuration is silently dropped by
the `try/except` around `_check_restrictions` and the sweep completes
normally with an empty result table. -/
theorem C5_restriction_error_no_abort_counterexample :
    BExpr.eval ([("x".toList, 1)] : Params)
      (BExpr.cmp CmpOp.gt (AExpr.var "y".toList) (AExpr.num 0)) = none ∧
    tune_kernel ⟨1024, fun _ _ => .ok (), fun _ => [], fun _ => .ok 1⟩
      "vec".toList "SRC".toList (4, 4) [("x".toList, [1])] none none
      (some [BExpr.cmp CmpOp.gt (AExpr.var "y".toList) (AExpr.num 0)]) none =
      .ok ⟨[], []⟩ := by
  constructor
  · decide
  · decide

/-- C5 amended: a malformed grid-divisor expression whose evaluation raises
aborts the sweep immediately with the raised error, while a malformed
restriction expression does not abort — it only drops the configuration
during the filtering pass. -/
theorem C5_divisor_error_aborts (dev : DeviceInterface)
    (kernel_name original_kernel : Str) (problem_size : Int × Int)
    (grid_div_x grid_div_y : Option (List AExpr))
    (answer : Option (List (Option (List ℚ)))) (keys : List Str) (element : List Int)
    (rest : List (List Int)) (st : SweepState)
    (hth : ¬ numpy_prod3 (get_thread_block_dimensions (keys.zip element)) > dev.max_threads)
    (hgrid : get_grid_dimensions problem_size (keys.zip element) grid_div_y grid_div_x = none) :
    sweep_loop dev kernel_name original_kernel problem_size grid_div_x grid_div_y answer keys
      (element :: rest) st = .error "grid divisor evaluation raised".toList
    ∧ (∀ (tune_params : List (Str × List Int)) (rs : List BExpr) (e : List Int) (r : BExpr),
        r ∈ rs → BExpr.eval ((tune_params.map (fun kv => kv.1)).zip e) r = none →
        e ∉ filtered_space tune_params (some rs)) := by
  constructor
  · have hpc : process_config dev kernel_name original_kernel problem_size grid_div_x
        grid_div_y answer keys element =
        ⟨none, .fatal "grid divisor evaluation raised".toList⟩ := by
      simp only [process_config]
      rw [if_neg hth, hgrid]
    rw [sweep_loop, hpc]
  · intro tune_params rs e r hr heval hmem
    have hok := (List.mem_filter.mp hmem).2
    rw [check_restrictions] at hok
    have := (check_restrictions_list_isOk _ rs).mp hok r hr
    rw [heval] at this
    cases this

/-- C5 witness: a divisor referencing an unknown name makes the sweep abort
at the first configuration. -/
theorem C5_divisor_error_aborts_witness :
    sweep_loop ⟨1024, fun _ _ => .ok (), fun _ => [], fun _ => .ok 1⟩
      "vec".toList "SRC".toList (4, 4) (some [AExpr.var "nope".toList]) none none
      ["x".toList] [[1]] ⟨[], []⟩ = .error "grid divisor evaluation raised".toList :=
  (C5_divisor_error_aborts ⟨1024, fun _ _ => .ok (), fun _ => [], fun _ => .ok 1⟩
    "vec".toList "SRC".toList (4, 4) (some [AExpr.var "nope".toList]) none none
    ["x".toList] [1] [] ⟨[], []⟩ (by decide) (by decide)).1

theorem get_grid_dimensions_empty_div (problem_size : Int × Int) (params : Params) :
    get_grid_dimensions problem_size params none (some []) =
      some (problem_size.1, problem_size.2) := by
  show (if ((1 : Int) = 0 ∨ (1 : Int) = 0) then (none : Option (Int × Int))
    else some (⌈(problem_size.1 : ℚ) / ((1 : Int) : ℚ)⌉,
      ⌈(problem_size.2 : ℚ) / ((1 : Int) : ℚ)⌉)) = some (problem_size.1, problem_size.2)
  rw [if_neg (by decide : ¬((1 : Int) = 0 ∨ (1 : Int) = 0))]
  norm_num

theorem joinUnderscore_chars :
    ∀ (parts : List Str) (c : Char), c ∈ joinUnderscore parts →
      c = '_' ∨ ∃ p ∈ parts, c ∈ p := by
  intro parts
  induction parts with
  | nil => intro c hc; cases hc
  | cons s rest ih =>
    intro c hc
    match rest with
    | [] =>
      right
      exact ⟨s, List.mem_cons_self s [], by simpa [joinUnderscore] using hc⟩
    | r :: rest' =>
      rw [show joinUnderscore (s :: r :: rest') = s ++ '_' :: joinUnderscore (r :: rest')
        from rfl] at hc
      rcases List.mem_append.mp hc with h | h
      · exact Or.inr ⟨s, List.mem_cons_self s _, h⟩
      · rcases List.mem_cons.mp h with rfl | h'
        · exact Or.inl rfl
        · rcases ih c h' with h2 | ⟨p, hp, hcp⟩
          · exact Or.inl h2
          · exact Or.inr ⟨p, List.mem_cons_of_mem s hp, hcp⟩

theorem instanceString_chars (vals : List Int) :
    ∀ c ∈ instanceString vals, c = '_' ∨ c = '-' ∨ ∃ d, d < 10 ∧ c = digitChar d := by
  intro c hc
  rcases joinUnderscore_chars (vals.map intStr) c hc with h | ⟨p, hp, hcp⟩
  · exact Or.inl h
  · obtain ⟨i, _, rfl⟩ := List.mem_map.mp hp
    exact Or.inr (intStr_chars i c hcp)

theorem digit_isDigit {d : Nat} (hd : d < 10) : (digitChar d).isDigit = true := by
  interval_cases d <;> decide

theorem char_not_mem_instanceString (vals : List Int) (c : Char)
    (hdig : c.isDigit = false) (hu : c ≠ '_') (hdash : c ≠ '-') :
    c ∉ instanceString vals := by
  intro hmem
  rcases instanceString_chars vals c hmem with h | h | ⟨d, hd, hc⟩
  · exact hu h
  · exact hdash h
  · rw [hc, digit_isDigit hd] at hdig
    cases hdig

theorem not_infix_of_mem_not_mem {pat s : Str} {c : Char} (hc : c ∈ pat) (hns : c ∉ s) :
    ¬ pat <:+: s := fun hinf => hns (hinf.subset hc)

/-- The message raised by `_check_kernel_correctness` (`interface.py:528`). -/
def correctness_msg (inst : Str) : Str :=
  "Error ".toList ++ inst ++ " failed correctness check".toList

theorem correctness_msg_not_resource (vals : List Int) :
    (containsSub resources_msg (correctness_msg (instanceString vals)) ||
      containsSub out_of_resources_msg (correctness_msg (instanceString vals))) = false := by
  have hq : 'q' ∉ correctness_msg (instanceString vals) := by
    intro hmem
    rcases List.mem_append.mp hmem with h | h
    · rcases List.mem_append.mp h with h1 | h2
      · exact absurd h1 (by decide)
      · exact char_not_mem_instanceString vals 'q' (by decide) (by decide) (by decide) h2
    · exact absurd h (by decide)
  have hO : 'O' ∉ correctness_msg (instanceString vals) := by
    intro hmem
    rcases List.mem_append.mp hmem with h | h
    · rcases List.mem_append.mp h with h1 | h2
      · exact absurd h1 (by decide)
      · exact char_not_mem_instanceString vals 'O' (by decide) (by decide) (by decide) h2
    · exact absurd h (by decide)
  have h1 : containsSub resources_msg (correctness_msg (instanceString vals)) = false := by
    unfold containsSub
    exact decide_eq_false (not_infix_of_mem_not_mem (by decide : 'q' ∈ resources_msg) hq)
  have h2 : containsSub out_of_resources_msg (correctness_msg (instanceString vals)) = false := by
    unfold containsSub
    exact decide_eq_false
      (not_infix_of_mem_not_mem (by decide : 'O' ∈ out_of_resources_msg) hO)
  rw [h1, h2]
  rfl

/-- C6 counterexample: with expected value 1 and post-run value
`1 + 5e-6` — beyond the claimed absolute tolerance 1e-6 — the sweep does not
raise: `numpy.allclose` keeps its default relative tolerance 1e-5, the
comparison passes, and the configuration is benchmarked and recorded. -/
theorem C6_absolute_tolerance_counterexample :
    |((200001 : ℚ) / 200000) - 1| > 1 / 1000000 ∧
    tune_kernel ⟨1024, fun _ _ => .ok (), fun _ => [[200001 / 200000]], fun _ => .ok 1⟩
      "vec".toList "SRC".toList (4, 4) [("x".toList, [1])] (some []) none none
      (some [some [1]]) = .ok ⟨[(['1'], 1)], ["vec_1".toList]⟩ := by
  constructor
  · rw [show (200001 : ℚ) / 200000 - 1 = 1 / 200000 by norm_num,
      show |(1 : ℚ) / 200000| = 1 / 200000 from abs_of_nonneg (by norm_num)]
    norm_num
  · have hall : allclose [(200001 : ℚ) / 200000] [1] = true := by
      unfold allclose
      simp only [List.zip_cons_cons, List.zip_nil_right, List.all_cons, List.all_nil,
        Bool.and_true, decide_eq_true_eq]
      rw [show (200001 : ℚ) / 200000 - 1 = 1 / 200000 by norm_num,
        show |(1 : ℚ) / 200000| = 1 / 200000 from abs_of_nonneg (by norm_num),
        show |(1 : ℚ)| = 1 from abs_one]
      norm_num
    have hver : try_verify_and_benchmark
        ⟨1024, fun _ _ => .ok (), fun _ => [[200001 / 200000]], fun _ => .ok 1⟩
        ("vec".toList ++ '_' :: instanceString ((["x".toList].zip [1]).map (fun kv => kv.2)))
        (instanceString ((["x".toList].zip [1]).map (fun kv => kv.2)))
        (some [some [1]]) = .ok 1 := by
      unfold try_verify_and_benchmark
      simp only []
      rw [show ([[(200001 : ℚ) / 200000]].zip [some [(1 : ℚ)]]).all
          (fun p => match p.2 with
            | none => true
            | some expected => allclose p.1 expected) = true from by
        simp only [List.zip_cons_cons, List.zip_nil_right, List.all_cons, List.all_nil,
          Bool.and_true]
        exact hall]
      rfl
    have hpc : process_config
        ⟨1024, fun _ _ => .ok (), fun _ => [[200001 / 200000]], fun _ => .ok 1⟩
        "vec".toList "SRC".toList (4, 4) (some []) none (some [some [1]])
        ["x".toList] [1] =
        ⟨some ("vec".toList ++ '_' :: instanceString ((["x".toList].zip [1]).map
          (fun kv => kv.2))), .recorded 1⟩ := by
      simp only [process_config]
      rw [if_neg (by decide : ¬ numpy_prod3 (get_thread_block_dimensions
        (["x".toList].zip [1])) > (1024 : Int)), get_grid_dimensions_empty_div]
      simp only []
      rw [hver]
    unfold tune_kernel
    rw [show filtered_space [("x".toList, [1])] none = [[1]] from by decide]
    rw [show (List.map (fun kv => kv.1) [("x".toList, ([1] : List Int))]) = ["x".toList]
      from rfl]
    rw [sweep_loop, hpc]
    simp only []
    rw [sweep_loop]
    congr 1

/-- C6 amended: with an answer supplied, if the sweep reaches a configuration
whose compilation succeeds and some checked argument's post-execution value
differs from the expected value beyond numpy's tolerance
`1e-6 + 1e-5 * |expected|` (absolute tolerance 1e-6 as passed, plus numpy's
default relative tolerance 1e-5), the sweep aborts immediately with an error
naming that configuration's identity, so nothing further is recorded in the
result table. -/
theorem C6_correctness_failure_fatal (dev : DeviceInterface)
    (kernel_name original_kernel : Str)
    (problem_size : Int × Int) (grid_div_x grid_div_y : Option (List AExpr))
    (ans : List (Option (List ℚ))) (keys : List Str) (element : List Int)
    (grid : Int × Int) (rest : List (List Int)) (st : SweepState)
    (hth : ¬ numpy_prod3 (get_thread_block_dimensions (keys.zip element)) > dev.max_threads)
    (hgrid : get_grid_dimensions problem_size (keys.zip element) grid_div_y grid_div_x =
      some grid)
    (hcomp : dev.compile
      (kernel_name ++ '_' :: instanceString ((keys.zip element).map (fun kv => kv.2)))
      (replaceAll kernel_name
        (kernel_name ++ '_' :: instanceString ((keys.zip element).map (fun kv => kv.2)))
        (prepare_kernel_string original_kernel (keys.zip element) grid)) = .ok ())
    (hviol : ∃ p ∈ (dev.run_outputs (kernel_name ++ '_' ::
        instanceString ((keys.zip element).map (fun kv => kv.2)))).zip ans,
      ∃ expected, p.2 = some expected ∧
        ∃ q ∈ p.1.zip expected, |q.1 - q.2| > 1 / 1000000 + (1 / 100000) * |q.2|) :
    sweep_loop dev kernel_name original_kernel problem_size grid_div_x grid_div_y (some ans)
      keys (element :: rest) st =
      .error (correctness_msg (instanceString ((keys.zip element).map (fun kv => kv.2)))) := by
  have hcheck : ((dev.run_outputs (kernel_name ++ '_' ::
      instanceString ((keys.zip element).map (fun kv => kv.2)))).zip ans).all
      (fun p => match p.2 with
        | none => true
        | some expected => allclose p.1 expected) = false := by
    rw [List.all_eq_false]
    obtain ⟨p, hp, expected, hexp, q, hq, hgt⟩ := hviol
    refine ⟨p, hp, ?_⟩
    rw [hexp]
    simp only [Bool.not_eq_true]
    unfold allclose
    rw [List.all_eq_false]
    refine ⟨q, hq, ?_⟩
    simp only [decide_eq_true_eq]
    exact not_le.mpr hgt
  have hver : try_verify_and_benchmark dev
      (kernel_name ++ '_' :: instanceString ((keys.zip element).map (fun kv => kv.2)))
      (instanceString ((keys.zip element).map (fun kv => kv.2))) (some ans) =
      .error (correctness_msg (instanceString ((keys.zip element).map (fun kv => kv.2)))) := by
    unfold try_verify_and_benchmark
    simp only []
    rw [hcheck]
    rfl
  have hpc : process_config dev kernel_name original_kernel problem_size grid_div_x
      grid_div_y (some ans) keys element =
      ⟨some (kernel_name ++ '_' :: instanceString ((keys.zip element).map (fun kv => kv.2))),
        .fatal (correctness_msg (instanceString ((keys.zip element).map (fun kv => kv.2))))⟩ := by
    simp only [process_config]
    rw [if_neg hth, hgrid]
    simp only []
    rw [hcomp]
    simp only []
    rw [hver]
    simp only []
    rw [correctness_msg_not_resource]
    rfl
  rw [sweep_loop, hpc]

/-- C6 witness: a device whose output 5 differs from the expected 1 by far
more than the tolerance aborts the sweep with the configuration's identity in
the message. -/
theorem C6_correctness_failure_fatal_witness :
    sweep_loop ⟨1024, fun _ _ => .ok (), fun _ => [[5]], fun _ => .ok 1⟩
      "vec".toList "SRC".toList (4, 4) (some []) none (some [some [1]])
      ["x".toList] [[1]] ⟨[], []⟩ =
      .error (correctness_msg (instanceString ((["x".toList].zip [1]).map (fun kv => kv.2)))) :=
  C6_correctness_failure_fatal ⟨1024, fun _ _ => .ok (), fun _ => [[5]], fun _ => .ok 1⟩
    "vec".toList "SRC".toList (4, 4) (some []) none [some [1]] ["x".toList] [1]
    (4, 4) [] ⟨[], []⟩ (by decide) (get_grid_dimensions_empty_div (4, 4) _) rfl
    ⟨([5], some [1]), by decide, [1], rfl, (5, 1), by decide, by norm_num⟩
